import Mathlib

/-!
Verification of the Talav/mapstructure decoding engine.

This file gives a shallow embedding of the Go package: the dynamic value
universe that flows through the decoder, the destination type universe with
its cached per-struct field metadata, the two structured error kinds, the
converter registry, and the recursive decoding engine
(Unmarshal / unmarshalValue / unmarshalPtr / unmarshalSlice /
unmarshalSliceElements / unmarshalStruct / unmarshalEmbeddedField /
validateResultPointer / buildFieldPath) together with the metadata builder
(buildMetadata / parseFieldTag).

Embedding conventions:
- Go dynamic values (interface values of type any) are the inductive Value.
  Go machine ints are modelled as unbounded Int (no claim exercises native
  overflow); Go float64 inputs are modelled as exact rationals (every float
  literal appearing in a claim is exactly representable).
- Go types are the inductive Ty.  A struct type carries its name and its
  cached field descriptor list inline: the StructMetadataCache build is a
  pure, deterministic function of the type, so the descriptor carried by
  tStruct plays the role of GetMetadata of that type, and type identity of
  named struct types is name identity.
- reflect.Value destinations are modelled functionally: every unmarshal
  function returns the updated destination value instead of mutating it.
  All modelled destination slots are settable (the engine only reaches
  exported fields, which are the only ones present in the metadata).
- Mutual recursion of the engine is broken by passing the recursive
  entry point (unmarshalValue applied to its fuel and unmarshaler) to the
  structural helpers as the function argument named go; unmarshalValue
  itself recurses on explicit fuel.  Fuel exhaustion is a distinguished
  error that no terminating Go execution produces.
-/

/-- Per-field cached metadata, mirroring FieldMetadata in the source
(StructFieldName, MapKey, Index, Type, Embedded, Default); the Default
field of the source (a *string holding the raw default tag literal) is
named defaultLit here. Parametrised over the type of types so that Ty can
nest it. -/
structure FieldMetaP (τ : Type) where
  structFieldName : String
  mapKey : String
  index : Nat
  type : τ
  embedded : Bool
  defaultLit : Option String

/-- The destination type universe: the Go kinds the decoding engine
dispatches on (int, string, bool, float64, interface, pointer, slice,
struct), restricted to the types the claims exercise.  tStruct carries the
cached field descriptors (see module comment). -/
inductive Ty : Type where
  | tInt : Ty
  | tString : Ty
  | tBool : Ty
  | tFloat : Ty
  | tAny : Ty
  | tPtr (elem : Ty) : Ty
  | tSlice (elem : Ty) : Ty
  | tStruct (name : String) (fields : List (FieldMetaP Ty)) : Ty

/-- FieldMetadata over the concrete type universe. -/
abbrev FieldMeta := FieldMetaP Ty

/-- Go dynamic values (the any universe reaching the decoder).  vMap is a
value whose dynamic type is exactly map from string to any; vMapOther is a
string-keyed map value of any other dynamic type (such as a map from
string to string), which the type assertion in unmarshalStruct rejects.
vSliceNil is a typed nil slice, vSlice a non-nil slice; vPtr carries the
pointee type so that validateResultPointer can recover it. -/
inductive Value : Type where
  | vNil : Value
  | vInt (n : Int) : Value
  | vStr (s : String) : Value
  | vBool (b : Bool) : Value
  | vFloat (q : Rat) : Value
  | vPtr (elemTy : Ty) (p : Option Value) : Value
  | vSliceNil (elemTy : Ty) : Value
  | vSlice (elemTy : Ty) (xs : List Value) : Value
  | vMap (m : List (String × Value)) : Value
  | vMapOther (desc : String) (m : List (String × Value)) : Value
  | vStructV (name : String) (fieldVals : List Value) : Value

/-- The two structured failure kinds of the package plus the ways errors
are built around them: conversionError mirrors ConversionError (FieldPath,
Value, TargetType, Cause), validationError mirrors ValidationError,
wrapped mirrors the fmt.Errorf percent-s-colon-percent-w wrapping done in
unmarshalStruct, noConverter mirrors the default-case error of
unmarshalValue, convFailure stands for the plain causes returned by
converters, and fuelExhausted is the embedding artifact for running out of
fuel (never produced by a terminating Go run). -/
inductive GoErr : Type where
  | conversionError (fieldPath : String) (value : Value) (targetType : Ty)
      (cause : Option GoErr) : GoErr
  | validationError (msg : String) : GoErr
  | wrapped (prefixPath : String) (inner : GoErr) : GoErr
  | noConverter (fieldPath : String) (ty : Ty) : GoErr
  | convFailure (msg : String) : GoErr
  | fuelExhausted : GoErr

/-- NewConversionError from the source: an empty field path is replaced by
the sentinel root. -/
def newConversionError (fieldPath : String) (value : Value) (targetType : Ty)
    (cause : Option GoErr) : GoErr :=
  .conversionError (if fieldPath = "" then "root" else fieldPath) value targetType cause

/-- True when the error is, or (through wrapping and causes) contains, a
conversion error whose field path equals the target; this is the
observable sense in which a decode failure carries a path. -/
def errHasConvPath : GoErr → String → Bool
  | .conversionError p _ _ none, target => p == target
  | .conversionError p _ _ (some c), target => p == target || errHasConvPath c target
  | .wrapped _ inner, target => errHasConvPath inner target
  | _, _ => false

/-- Type identity on the modelled universe (reflect.Type equality): named
struct types are identified by name. -/
def tyBeq : Ty → Ty → Bool
  | .tInt, .tInt => true
  | .tString, .tString => true
  | .tBool, .tBool => true
  | .tFloat, .tFloat => true
  | .tAny, .tAny => true
  | .tPtr a, .tPtr b => tyBeq a b
  | .tSlice a, .tSlice b => tyBeq a b
  | .tStruct n _, .tStruct m _ => n == m
  | _, _ => false

/-- The data equals nil interface check of the engine. -/
def isNilV : Value → Bool
  | .vNil => true
  | _ => false

/-- reflect AssignableTo on the modelled universe: every value is
assignable to the empty interface, otherwise assignability is type
identity of the dynamic type and the destination type.  String-keyed map
values are never assignable to any modelled destination type (no map
destinations are modelled). -/
def assignableTo : Value → Ty → Bool
  | _, .tAny => true
  | .vInt _, .tInt => true
  | .vStr _, .tString => true
  | .vBool _, .tBool => true
  | .vFloat _, .tFloat => true
  | .vPtr e _, .tPtr e2 => tyBeq e e2
  | .vSliceNil e, .tSlice e2 => tyBeq e e2
  | .vSlice e _, .tSlice e2 => tyBeq e e2
  | .vStructV n _, .tStruct n2 _ => n == n2
  | _, _ => false

/-- The sequence-shaped test of unmarshalSlice (reflect Kind is Slice or
Array) together with the element type and elements the reflection view
exposes; a typed nil slice is sequence-shaped with length zero. -/
def sliceView : Value → Option (Ty × List Value)
  | .vSlice e xs => some (e, xs)
  | .vSliceNil e => some (e, [])
  | _ => none

/-- Go map indexing with its ok flag, on the association-list model of a
string-keyed map (keys are unique in a Go map; lookup finds the first). -/
def lookupStr : List (String × Value) → String → Option Value
  | [], _ => none
  | (k, v) :: rest, key => if k = key then some v else lookupStr rest key

/-- buildFieldPath from the source. -/
def buildFieldPath (base field : String) : String :=
  if base = "" then field else base ++ "." ++ field

mutual

/-- reflect.Zero of a modelled type (also the value reflect.New allocates,
and the per-element content of reflect.MakeSlice). -/
def zeroValue : Ty → Value
  | .tInt => .vInt 0
  | .tString => .vStr ""
  | .tBool => .vBool false
  | .tFloat => .vFloat 0
  | .tAny => .vNil
  | .tPtr e => .vPtr e none
  | .tSlice e => .vSliceNil e
  | .tStruct n fs => .vStructV n (zeroFields fs)

/-- Zero values of a struct field list, in order. -/
def zeroFields : List FieldMeta → List Value
  | [] => []
  | f :: rest => zeroField f :: zeroFields rest

/-- Zero value of one field. -/
def zeroField : FieldMeta → Value
  | f => zeroValue f.type

end

/-- Converter: a pure conversion function from a dynamic value to a value
of one fixed target type, or a raw failure (wrapped by the caller). -/
abbrev Converter := Value → Except GoErr Value

/-- ConverterRegistry: the immutable target-type-to-converter mapping,
exposed through its lookup Find. -/
structure ConverterRegistry where
  find : Ty → Option Converter

/-- Unmarshaler: the engine with its converter registry.  The fieldCache
component of the source is represented by the descriptors carried inline
by tStruct (see module comment), so only the converters remain as data. -/
structure Unmarshaler where
  converters : ConverterRegistry

/-- Truncation toward zero of an exact rational, the conversion Go applies
from floating point to integer types. -/
def ratTrunc (q : Rat) : Int :=
  if 0 ≤ q.num then ((q.num.toNat / q.den : Nat) : Int)
  else -(((-q.num).toNat / q.den : Nat) : Int)

/-- Decimal digit run parsing: none on the empty run or on any non-digit
character, otherwise the accumulated value. -/
def parseDigits : List Char → Option Nat → Option Nat
  | [], acc => acc
  | c :: rest, acc =>
      if '0' ≤ c ∧ c ≤ '9' then
        parseDigits rest (some ((acc.getD 0) * 10 + (c.toNat - 48)))
      else none

/-- Decimal natural parsing of a character run. -/
def parseNatChars (cs : List Char) : Option Nat := parseDigits cs none

/-- Decimal integer parsing with optional sign, mirroring the decimal
syntax strconv ParseInt accepts in base ten. -/
def parseIntStr (s : String) : Option Int :=
  match s.toList with
  | '-' :: rest => (parseNatChars rest).map (fun n => -(n : Int))
  | '+' :: rest => (parseNatChars rest).map (fun n => (n : Int))
  | cs => (parseNatChars cs).map (fun n => (n : Int))

/-- ASCII lowering of one character. -/
def lowerChar (c : Char) : Char :=
  if 'A' ≤ c ∧ c ≤ 'Z' then Char.ofNat (c.toNat + 32) else c

/-- ASCII case folding of a string (the case-insensitive comparison the
boolean converter applies). -/
def lowerStr (s : String) : String := String.mk (s.toList.map lowerChar)

/-- Modelled from the spec: the built-in converter to the int type (the
convertInt of the source, whose file is not part of src and is pinned by
its tests).  Native ints pass through, floats truncate toward zero,
booleans coerce to one and zero, strings parse as decimal integers (an
empty string yields zero, as the convertInt tests require), any other
shape fails. -/
def convertInt : Converter := fun v =>
  match v with
  | .vInt n => .ok (.vInt n)
  | .vFloat q => .ok (.vInt (ratTrunc q))
  | .vBool b => .ok (.vInt (if b then 1 else 0))
  | .vStr s =>
      if s = "" then .ok (.vInt 0)
      else
        match parseIntStr s with
        | none => .error (.convFailure ("parsing " ++ s ++ ": invalid syntax"))
        | some n =>
            if n < -(2 ^ 63) ∨ 2 ^ 63 ≤ n then
              .error (.convFailure ("parsing " ++ s ++ ": value out of range"))
            else .ok (.vInt n)
  | _ => .error (.convFailure "unsupported type for int conversion")

/-- Modelled from the spec: the built-in converter to bool (convertBool of
the source, not part of src).  Native booleans pass through, numerics are
non-zero-is-true, strings parse case-insensitively with true and 1 for
true, and false, 0 and empty for false; anything else fails. -/
def convertBool : Converter := fun v =>
  match v with
  | .vBool b => .ok (.vBool b)
  | .vInt n => .ok (.vBool (decide (n ≠ 0)))
  | .vFloat q => .ok (.vBool (decide (q ≠ 0)))
  | .vStr s =>
      let l := lowerStr s
      if l = "true" ∨ l = "1" then .ok (.vBool true)
      else if l = "false" ∨ l = "0" ∨ l = "" then .ok (.vBool false)
      else .error (.convFailure ("parsing " ++ s ++ ": invalid bool"))
  | _ => .error (.convFailure "unsupported type for bool conversion")

/-- Modelled from the spec: the built-in converter to string (convertString
of the source, not part of src).  Native strings pass through, booleans
render as 1 and 0, integers render in decimal; the canonical decimal
rendering of floating values is abstracted (no claim exercises it) as the
rendering of the exact rational. -/
def convertString : Converter := fun v =>
  match v with
  | .vStr s => .ok (.vStr s)
  | .vBool b => .ok (.vStr (if b then "1" else "0"))
  | .vInt n => .ok (.vStr (toString n))
  | .vFloat q =>
      .ok (.vStr (if q.den = 1 then toString q.num
                  else toString q.num ++ "/" ++ toString q.den))
  | _ => .error (.convFailure "unsupported type for string conversion")

/-- Split a character run at the first dot, exposing whether a dot was
present. -/
def breakDot : List Char → List Char × Option (List Char)
  | [] => ([], none)
  | c :: rest =>
      if c = '.' then ([], some rest)
      else
        let r := breakDot rest
        (c :: r.1, r.2)

/-- Decimal literal parsing into an exact rational (optional leading
sign, digits, optional fraction part); used by the modelled float
converter.  Infinities, not-a-number and exponents are outside the exact
rational embedding, and no claim exercises them. -/
def parseDecimalRat (s : String) : Option Rat :=
  let core : List Char → Option Rat := fun t =>
    match breakDot t with
    | (a, none) => (parseNatChars a).map (fun n => (n : Rat))
    | (a, some b) =>
        match parseNatChars a, parseNatChars b with
        | some n, some f => some ((n : Rat) + (f : Rat) / ((10 : Rat) ^ b.length))
        | _, _ => none
  match s.toList with
  | '-' :: rest => (core rest).map (fun q => -q)
  | '+' :: rest => core rest
  | cs => core cs

/-- Modelled from the spec: the built-in converter to float64
(convertFloat64 of the source, not part of src).  Integers and booleans
widen, floats pass through, strings parse as decimal literals (empty
yields zero, as the convertFloat64 tests require). -/
def convertFloat64 : Converter := fun v =>
  match v with
  | .vFloat q => .ok (.vFloat q)
  | .vInt n => .ok (.vFloat (n : Rat))
  | .vBool b => .ok (.vFloat (if b then 1 else 0))
  | .vStr s =>
      if s = "" then .ok (.vFloat 0)
      else
        match parseDecimalRat s with
        | none => .error (.convFailure ("parsing " ++ s ++ ": invalid syntax"))
        | some q => .ok (.vFloat q)
  | _ => .error (.convFailure "unsupported type for float conversion")

/-- Modelled from the spec: the default converter registry restricted to
the modelled type universe (NewDefaultConverterRegistry of the source, not
part of src): the built-in scalar table keyed by exact target type; no
converter is registered for pointer, slice, struct or interface types of
this universe. -/
def defaultFind : Ty → Option Converter
  | .tInt => some convertInt
  | .tString => some convertString
  | .tBool => some convertBool
  | .tFloat => some convertFloat64
  | _ => none

/-- The default unmarshaler (default cache configuration and default
converter registry). -/
def uDefault : Unmarshaler := ⟨⟨defaultFind⟩⟩

/-- unmarshalPtr from the source, with the recursive entry point passed as
go: nil data zeroes the pointer; otherwise a nil destination pointer is
replaced by a freshly allocated zero pointee, and decoding recurses into
the pointee with the same data and path. -/
def unmarshalPtr (go : Value → Ty → Value → String → Except GoErr Value)
    (data : Value) (elemTy : Ty) (rv : Value) (fieldPath : String) :
    Except GoErr Value :=
  if isNilV data then .ok (.vPtr elemTy none)
  else
    let inner : Value :=
      match rv with
      | .vPtr _ (some v) => v
      | _ => zeroValue elemTy
    match go data elemTy inner fieldPath with
    | .error e => .error e
    | .ok v => .ok (.vPtr elemTy (some v))

/-- The element loop of the regular conversion path of
unmarshalSliceElements: each destination element starts as the zero
element of the freshly made slice, indices ascending, first failure
propagated. -/
def unmarshalElems (go : Value → Ty → Value → String → Except GoErr Value) :
    List Value → Ty → String → Nat → Except GoErr (List Value)
  | [], _, _, _ => .ok []
  | x :: rest, elemTy, fieldPath, i =>
      let elemPath := fieldPath ++ "[" ++ toString i ++ "]"
      match go x elemTy (zeroValue elemTy) elemPath with
      | .error e => .error e
      | .ok v =>
          match unmarshalElems go rest elemTy fieldPath (i + 1) with
          | .error e => .error e
          | .ok vs => .ok (v :: vs)

/-- unmarshalSliceElements from the source: fast path 1 assigns the data
slice when its type is assignable to the destination slice type, fast
path 2 bulk-copies on identical element types, fast path 3 moves elements
unconverted into an interface-element destination, and otherwise the
element-by-element conversion path runs. -/
def unmarshalSliceElements (go : Value → Ty → Value → String → Except GoErr Value)
    (dElemTy : Ty) (xs : List Value) (elemTy : Ty) (fieldPath : String) :
    Except GoErr Value :=
  if tyBeq (Ty.tSlice dElemTy) (Ty.tSlice elemTy) then .ok (.vSlice dElemTy xs)
  else if tyBeq dElemTy elemTy then .ok (.vSlice elemTy xs)
  else
    match elemTy with
    | .tAny =>
        .ok (.vSlice Ty.tAny xs)
    | _ =>
        match unmarshalElems go xs elemTy fieldPath 0 with
        | .error e => .error e
        | .ok vs => .ok (.vSlice elemTy vs)

/-- unmarshalSlice from the source: nil data zeroes the slice; non-nil
data must be sequence-shaped or the result is a conversion failure with no
cause; a zero-length source yields an empty non-nil slice; otherwise the
fast paths and conversion path of unmarshalSliceElements run.  The
destination slot is consulted only for its type, which is passed as
elemTy. -/
def unmarshalSlice (go : Value → Ty → Value → String → Except GoErr Value)
    (data : Value) (elemTy : Ty) (fieldPath : String) : Except GoErr Value :=
  if isNilV data then .ok (.vSliceNil elemTy)
  else
    match sliceView data with
    | none => .error (newConversionError fieldPath data (Ty.tSlice elemTy) none)
    | some (dElemTy, xs) =>
        if xs.length = 0 then .ok (.vSlice elemTy [])
        else unmarshalSliceElements go dElemTy xs elemTy fieldPath

/-- unmarshalEmbeddedField from the source: a non-struct embedded field is
left untouched with no error; otherwise, an entry under the declared field
name whose value is exactly a string-keyed any-map is decoded as the
named-embedded form, and in every other case the entire current data map
is decoded into the embedded field (promoted form). -/
def unmarshalEmbeddedField (go : Value → Ty → Value → String → Except GoErr Value)
    (dataMap : List (String × Value)) (fieldValue : Value) (field : FieldMeta)
    (fieldPath : String) : Except GoErr Value :=
  match field.type with
  | .tStruct _ _ =>
      match lookupStr dataMap field.structFieldName with
      | some (.vMap nestedData) => go (.vMap nestedData) field.type fieldValue fieldPath
      | _ => go (.vMap dataMap) field.type fieldValue fieldPath
  | _ => .ok fieldValue

/-- The per-field loop of unmarshalStruct, over the cached descriptor
list, threading the struct field values: embedded fields are handled by
unmarshalEmbeddedField and the loop continues; otherwise the map entry
under the source key (or, when absent, the default literal as a string
value; or nothing, leaving the field untouched) is decoded into the field
slot, failures being wrapped with the full field path. -/
def unmarshalFields (go : Value → Ty → Value → String → Except GoErr Value)
    (dataMap : List (String × Value)) :
    List FieldMeta → List Value → String → Except GoErr (List Value)
  | [], fvals, _ => .ok fvals
  | field :: rest, fvals, fieldPath =>
      let fieldValue := fvals.getD field.index .vNil
      if field.embedded then
        match unmarshalEmbeddedField (go) dataMap fieldValue field fieldPath with
        | .error e => .error e
        | .ok nv => unmarshalFields go dataMap rest (fvals.set field.index nv) fieldPath
      else
        match
          (match lookupStr dataMap field.mapKey with
           | some v => some v
           | none =>
               match field.defaultLit with
               | none => none
               | some d => some (.vStr d)) with
        | none => unmarshalFields go dataMap rest fvals fieldPath
        | some value =>
            let fullPath := buildFieldPath fieldPath field.mapKey
            match go value field.type fieldValue fullPath with
            | .error err => .error (.wrapped fullPath err)
            | .ok v => unmarshalFields go dataMap rest (fvals.set field.index v) fieldPath

/-- unmarshalStruct from the source: the data must be exactly a
string-keyed any-map (the type assertion), any other shape being a
conversion failure with no cause; then the cached fields are processed in
descriptor order by unmarshalFields. -/
def unmarshalStruct (go : Value → Ty → Value → String → Except GoErr Value)
    (data : Value) (name : String) (fields : List FieldMeta) (rv : Value)
    (fieldPath : String) : Except GoErr Value :=
  match data with
  | .vMap dataMap =>
      let fvals : List Value :=
        match rv with
        | .vStructV _ fv => fv
        | _ => []
      match unmarshalFields (go) dataMap fields fvals fieldPath with
      | .error e => .error e
      | .ok fvals2 => .ok (.vStructV name fvals2)
  | _ => .error (newConversionError fieldPath data (Ty.tStruct name fields) none)

/-- unmarshalValue from the source: non-nil data of a directly assignable
dynamic type is assigned verbatim; otherwise a registered converter for
the destination type alone decides (success assigns, failure becomes a
conversion failure carrying path, value and target type); otherwise the
destination kind dispatches to pointer, slice or struct handling, and any
remaining kind is the no-converter failure.  Fuel only bounds the
recursion depth of the embedding. -/
def unmarshalValue : Nat → Unmarshaler → Value → Ty → Value → String →
    Except GoErr Value
  | 0, _, _, _, _, _ => .error .fuelExhausted
  | fuel + 1, u, data, ty, rv, fieldPath =>
      if !isNilV data && assignableTo data ty then .ok data
      else
        match u.converters.find ty with
        | some conv =>
            match conv data with
            | .error e => .error (newConversionError fieldPath data ty (some e))
            | .ok converted => .ok converted
        | none =>
            match ty with
            | .tPtr elemTy =>
                unmarshalPtr (unmarshalValue fuel u) data elemTy rv fieldPath
            | .tSlice elemTy =>
                unmarshalSlice (unmarshalValue fuel u) data elemTy fieldPath
            | .tStruct name fields =>
                unmarshalStruct (unmarshalValue fuel u) data name fields rv fieldPath
            | _ => .error (.noConverter fieldPath ty)

/-- validateResultPointer from the source: a non-pointer argument is the
validation failure result must be a pointer, a nil pointer is the
validation failure result pointer is nil, and otherwise the pointee type
and value are exposed for decoding. -/
def validateResultPointer (result : Value) : Except GoErr (Ty × Value) :=
  match result with
  | .vPtr elemTy p =>
      match p with
      | none => .error (.validationError ("result pointer is nil"))
      | some v => .ok (elemTy, v)
  | _ => .error (.validationError ("result must be a pointer"))

/-- Unmarshal from the source: validate the result pointer, then decode
the data map into the pointee with the empty root path.  The updated
pointee is returned (the Go method mutates it through the pointer). -/
def Unmarshal (fuel : Nat) (u : Unmarshaler) (data : List (String × Value))
    (result : Value) : Except GoErr Value :=
  match validateResultPointer result with
  | .error e => .error e
  | .ok (elemTy, rv) => unmarshalValue fuel u (.vMap data) elemTy rv ""

/-- One declared field of a Go struct type as the reflection and tag
system present it to buildMetadata: name, exportedness, anonymity, the
struct tag as a key-value association (Tag.Get and Tag.Lookup), and the
field type. -/
structure RawField where
  name : String
  exported : Bool
  anonymous : Bool
  tags : List (String × String)
  type : Ty

/-- reflect StructTag Get: the tag value under a key, empty when absent. -/
def tagGet (tags : List (String × String)) (key : String) : String :=
  match tags with
  | [] => ""
  | (k, v) :: rest => if k = key then v else tagGet rest key

/-- reflect StructTag Lookup: the tag value under a key with presence. -/
def tagLookup (tags : List (String × String)) (key : String) : Option String :=
  match tags with
  | [] => none
  | (k, v) :: rest => if k = key then some v else tagLookup rest key

/-- parseFieldTag from the source, parametrised over the external
tagparser collaborator (parse returns none on error): an empty tag value
falls back to the field name; a tag value of dash skips the field; parse
errors and empty parsed names fall back to the field name; a parsed name
of dash still skips. -/
def parseFieldTag (parse : String → Option String) (tagValue fieldName : String) :
    String × Bool :=
  if tagValue = "" then (fieldName, false)
  else if tagValue = "-" then ("", true)
  else
    match parse tagValue with
    | none => (fieldName, false)
    | some nm =>
        if nm = "" then (fieldName, false)
        else if nm = "-" then ("", true)
        else (nm, false)

/-- The field loop of buildMetadata, with the running declared-field index
(the source iterates typ.NumField with index i): unexported fields are
skipped, the map key and skip flag come from the tag (unless the
configured tag name is the dash sentinel, which uses declared names
unconditionally), skipped fields are omitted entirely, and the raw default
tag literal is stored unconverted. -/
def buildMetadataGo (parse : String → Option String) (tagName defaultTagName : String) :
    List RawField → Nat → List FieldMeta
  | [], _ => []
  | f :: rest, i =>
      if f.exported then
        let mk :=
          if tagName = "-" then (f.name, false)
          else parseFieldTag parse (tagGet f.tags tagName) f.name
        if mk.2 then buildMetadataGo parse tagName defaultTagName rest (i + 1)
        else
          { structFieldName := f.name
            mapKey := mk.1
            index := i
            type := f.type
            embedded := f.anonymous
            defaultLit := tagLookup f.tags defaultTagName } ::
            buildMetadataGo parse tagName defaultTagName rest (i + 1)
      else buildMetadataGo parse tagName defaultTagName rest (i + 1)

/-- buildMetadata from the source (the build step of GetMetadata; the
cache itself is a benign memoisation of this pure function). -/
def buildMetadata (parse : String → Option String) (tagName defaultTagName : String)
    (decl : List RawField) : List FieldMeta :=
  buildMetadataGo parse tagName defaultTagName decl 0

/-- True exactly when an error is a validation failure. -/
def isValidationErr : GoErr → Bool
  | .validationError _ => true
  | _ => false

/-- The SliceInt fixture of the slice fast-path tests: a struct with one
int-slice field Values (field names used directly as map keys). -/
def sliceIntFields : List FieldMeta :=
  [{ structFieldName := "Values", mapKey := "Values", index := 0,
     type := .tSlice .tInt, embedded := false, defaultLit := none }]

/-- The SliceInt struct type. -/
def tySliceInt : Ty := .tStruct "SliceInt" sliceIntFields

/-- A fresh zero SliceInt destination. -/
def freshSliceInt : Value := .vStructV "SliceInt" [.vSliceNil .tInt]

/-- The Inner fixture of the path-reporting property: one int field with
source key value. -/
def innerFields : List FieldMeta :=
  [{ structFieldName := "Value", mapKey := "value", index := 0,
     type := .tInt, embedded := false, defaultLit := none }]

/-- The Inner struct type. -/
def tyInner : Ty := .tStruct "Inner" innerFields

/-- The Outer fixture: one nested-record field with source key inner. -/
def outerFields : List FieldMeta :=
  [{ structFieldName := "Inner", mapKey := "inner", index := 0,
     type := tyInner, embedded := false, defaultLit := none }]

/-- The Outer struct type. -/
def tyOuter : Ty := .tStruct "Outer" outerFields

/-- A one-string-field struct fixture. -/
def sFields : List FieldMeta :=
  [{ structFieldName := "A", mapKey := "A", index := 0,
     type := .tString, embedded := false, defaultLit := none }]

/-- A plain int field carrying a default literal, for instantiating the
default-precedence properties. -/
def fieldCount : FieldMeta :=
  { structFieldName := "Count", mapKey := "count", index := 0,
    type := .tInt, embedded := false, defaultLit := some "42" }

/-- An embedded record-shaped field (declared name Timestamps, embedded
type Inner), for instantiating the embedded-field properties. -/
def fieldEmb : FieldMeta :=
  { structFieldName := "Timestamps", mapKey := "Timestamps", index := 0,
    type := tyInner, embedded := true, defaultLit := none }

/-- An embedded field whose type is not record-shaped. -/
def fieldEmbInt : FieldMeta :=
  { structFieldName := "CustomInt", mapKey := "CustomInt", index := 0,
    type := .tInt, embedded := true, defaultLit := none }

/-- The one-string-field struct type over sFields. -/
def tyS : Ty := .tStruct "S" sFields

/-- A declared struct shape with one exported field whose key annotation
is exactly the dash (the skip annotation), under the schema tag. -/
def declSkip : List RawField :=
  [{ name := "Ignored", exported := true, anonymous := false,
     tags := [("schema", "-")], type := .tString }]

/-- A tag parser stand-in that always fails (the claims it serves never
reach it). -/
def parseNone : String → Option String := fun _ => none

/-- A declared struct shape with one embedded (anonymous) field that
carries a default annotation. -/
def declEmb : List RawField :=
  [{ name := "Timestamps", exported := true, anonymous := true,
     tags := [("default", "x")], type := tyInner }]

/-- The descriptor the metadata builder produces for declEmb. -/
def fmEmbBuilt : FieldMeta :=
  { structFieldName := "Timestamps", mapKey := "Timestamps", index := 0,
    type := tyInner, embedded := true, defaultLit := some "x" }

theorem unmarshalPtr_not_validation
    (go : Value → Ty → Value → String → Except GoErr Value)
    (Hgo : ∀ d t r p e, go d t r p = .error e → isValidationErr e = false)
    (data : Value) (elemTy : Ty) (rv : Value) (path : String) (e : GoErr)
    (h : unmarshalPtr go data elemTy rv path = .error e) :
    isValidationErr e = false := by
  simp only [unmarshalPtr] at h
  split at h
  · simp at h
  · split at h
    · next e2 hg =>
        injection h with h2
        subst h2
        exact Hgo _ _ _ _ _ hg
    · simp at h

theorem unmarshalElems_not_validation
    (go : Value → Ty → Value → String → Except GoErr Value)
    (Hgo : ∀ d t r p e, go d t r p = .error e → isValidationErr e = false) :
    ∀ (xs : List Value) (elemTy : Ty) (path : String) (i : Nat) (e : GoErr),
    unmarshalElems go xs elemTy path i = .error e → isValidationErr e = false := by
  intro xs
  induction xs with
  | nil => intro elemTy path i e h; simp [unmarshalElems] at h
  | cons x rest ih =>
      intro elemTy path i e h
      simp only [unmarshalElems] at h
      split at h
      · next e2 hg =>
          injection h with h2
          subst h2
          exact Hgo _ _ _ _ _ hg
      · split at h
        · next e2 hr =>
            injection h with h2
            subst h2
            exact ih _ _ _ _ hr
        · simp at h

theorem unmarshalSliceElements_not_validation
    (go : Value → Ty → Value → String → Except GoErr Value)
    (Hgo : ∀ d t r p e, go d t r p = .error e → isValidationErr e = false)
    (dElemTy : Ty) (xs : List Value) (elemTy : Ty) (path : String) (e : GoErr)
    (h : unmarshalSliceElements go dElemTy xs elemTy path = .error e) :
    isValidationErr e = false := by
  simp only [unmarshalSliceElements] at h
  split at h
  · simp at h
  · split at h
    · simp at h
    · split at h
      · simp at h
      · split at h
        · next e2 hr =>
            injection h with h2
            subst h2
            exact unmarshalElems_not_validation go Hgo xs _ path 0 _ hr
        · simp at h

theorem unmarshalSlice_not_validation
    (go : Value → Ty → Value → String → Except GoErr Value)
    (Hgo : ∀ d t r p e, go d t r p = .error e → isValidationErr e = false)
    (data : Value) (elemTy : Ty) (path : String) (e : GoErr)
    (h : unmarshalSlice go data elemTy path = .error e) :
    isValidationErr e = false := by
  simp only [unmarshalSlice] at h
  split at h
  · simp at h
  · split at h
    · injection h with h2
      subst h2
      rfl
    · split at h
      · simp at h
      · exact unmarshalSliceElements_not_validation go Hgo _ _ _ _ _ h

theorem unmarshalEmbeddedField_not_validation
    (go : Value → Ty → Value → String → Except GoErr Value)
    (Hgo : ∀ d t r p e, go d t r p = .error e → isValidationErr e = false)
    (dm : List (String × Value)) (fv : Value) (f : FieldMeta) (path : String)
    (e : GoErr) (h : unmarshalEmbeddedField go dm fv f path = .error e) :
    isValidationErr e = false := by
  simp only [unmarshalEmbeddedField] at h
  split at h
  · split at h
    · exact Hgo _ _ _ _ _ h
    · exact Hgo _ _ _ _ _ h
  · simp at h

theorem unmarshalFields_not_validation
    (go : Value → Ty → Value → String → Except GoErr Value)
    (Hgo : ∀ d t r p e, go d t r p = .error e → isValidationErr e = false)
    (dm : List (String × Value)) :
    ∀ (fields : List FieldMeta) (fvals : List Value) (path : String) (e : GoErr),
    unmarshalFields go dm fields fvals path = .error e → isValidationErr e = false := by
  intro fields
  induction fields with
  | nil => intro fvals path e h; simp [unmarshalFields] at h
  | cons f rest ih =>
      intro fvals path e h
      simp only [unmarshalFields] at h
      split at h
      · split at h
        · next e2 hg =>
            injection h with h2
            subst h2
            exact unmarshalEmbeddedField_not_validation go Hgo dm _ f path _ hg
        · exact ih _ _ _ h
      · split at h
        · exact ih _ _ _ h
        · split at h
          · injection h with h2
            subst h2
            rfl
          · exact ih _ _ _ h

theorem unmarshalStruct_not_validation
    (go : Value → Ty → Value → String → Except GoErr Value)
    (Hgo : ∀ d t r p e, go d t r p = .error e → isValidationErr e = false)
    (data : Value) (name : String) (fields : List FieldMeta) (rv : Value)
    (path : String) (e : GoErr)
    (h : unmarshalStruct go data name fields rv path = .error e) :
    isValidationErr e = false := by
  simp only [unmarshalStruct] at h
  split at h
  · split at h
    · next e2 hf =>
        injection h with h2
        subst h2
        exact unmarshalFields_not_validation go Hgo _ fields _ path _ hf
    · simp at h
  · injection h with h2
    subst h2
    rfl

theorem unmarshalValue_not_validation :
    ∀ (fuel : Nat) (u : Unmarshaler) (data : Value) (ty : Ty) (rv : Value)
      (path : String) (e : GoErr),
    unmarshalValue fuel u data ty rv path = .error e → isValidationErr e = false := by
  intro fuel
  induction fuel with
  | zero =>
      intro u data ty rv path e h
      injection h with h2
      subst h2
      rfl
  | succ fuel ih =>
      intro u data ty rv path e h
      simp only [unmarshalValue] at h
      split at h
      · simp at h
      · split at h
        · split at h
          · injection h with h2
            subst h2
            rfl
          · simp at h
        · split at h
          · exact unmarshalPtr_not_validation _ (fun d t r p e2 => ih u d t r p e2) _ _ _ _ _ h
          · exact unmarshalSlice_not_validation _ (fun d t r p e2 => ih u d t r p e2) _ _ _ _ h
          · exact unmarshalStruct_not_validation _ (fun d t r p e2 => ih u d t r p e2) _ _ _ _ _ _ h
          · injection h with h2
            subst h2
            rfl

theorem buildMetadataGo_mem (parse : String → Option String)
    (tagName defaultTagName : String) :
    ∀ (decl : List RawField) (k : Nat) (fm : FieldMeta),
    fm ∈ buildMetadataGo parse tagName defaultTagName decl k →
    ∃ j f, fm.index = k + j ∧ decl.get? j = some f ∧ f.exported = true ∧
      fm.structFieldName = f.name ∧ fm.type = f.type ∧ fm.embedded = f.anonymous ∧
      fm.defaultLit = tagLookup f.tags defaultTagName ∧
      ((tagName = "-" ∧ fm.mapKey = f.name) ∨
       (tagName ≠ "-" ∧
         parseFieldTag parse (tagGet f.tags tagName) f.name = (fm.mapKey, false))) := by
  intro decl
  induction decl with
  | nil => intro k fm h; simp [buildMetadataGo] at h
  | cons f rest ih =>
      intro k fm h
      simp only [buildMetadataGo] at h
      by_cases hexp : f.exported = true
      · rw [if_pos hexp] at h
        by_cases htn : tagName = "-"
        · rw [if_pos htn] at h
          rcases h with _ | ⟨_, hmem⟩
          · refine ⟨0, f, ?_, rfl, hexp, ?_, ?_, ?_, ?_, Or.inl ⟨htn, ?_⟩⟩ <;> simp
          · obtain ⟨j, g, hidx, hget, hrest⟩ := ih (k + 1) _ hmem
            exact ⟨j + 1, g, by omega, by simpa using hget, hrest⟩
        · rw [if_neg htn] at h
          rcases hpt : parseFieldTag parse (tagGet f.tags tagName) f.name with ⟨mk1, sk⟩
          rw [hpt] at h
          cases sk with
          | true =>
              simp only at h
              obtain ⟨j, g, hidx, hget, hrest⟩ := ih (k + 1) fm h
              exact ⟨j + 1, g, by omega, by simpa using hget, hrest⟩
          | false =>
              rcases h with _ | ⟨_, hmem⟩
              · refine ⟨0, f, ?_, rfl, hexp, ?_, ?_, ?_, ?_, Or.inr ⟨htn, ?_⟩⟩ <;>
                  simp [hpt]
              · obtain ⟨j, g, hidx, hget, hrest⟩ := ih (k + 1) _ hmem
                exact ⟨j + 1, g, by omega, by simpa using hget, hrest⟩
      · rw [if_neg hexp] at h
        obtain ⟨j, g, hidx, hget, hrest⟩ := ih (k + 1) fm h
        exact ⟨j + 1, g, by omega, by simpa using hget, hrest⟩

theorem unmarshalFields_untouched
    (go : Value → Ty → Value → String → Except GoErr Value)
    (dm : List (String × Value)) :
    ∀ (fields : List FieldMeta) (fvals : List Value) (path : String) (i : Nat)
      (out : List Value),
    (∀ fm ∈ fields, fm.index ≠ i) →
    unmarshalFields go dm fields fvals path = .ok out →
    out[i]? = fvals[i]? := by
  intro fields
  induction fields with
  | nil =>
      intro fvals path i out _ h
      injection h with h2
      subst h2
      rfl
  | cons f rest ih =>
      intro fvals path i out hne h
      have hfi : f.index ≠ i := hne f (List.mem_cons_self f rest)
      have hrest : ∀ fm ∈ rest, fm.index ≠ i :=
        fun fm hm => hne fm (List.mem_cons_of_mem f hm)
      simp only [unmarshalFields] at h
      split at h
      · split at h
        · simp at h
        · have h2 := ih (fvals.set f.index _) path i out hrest h
          rw [h2]
          exact List.getElem?_set_ne hfi
      · split at h
        · exact ih fvals path i out hrest h
        · split at h
          · simp at h
          · have h2 := ih (fvals.set f.index _) path i out hrest h
            rw [h2]
            exact List.getElem?_set_ne hfi

/-- Claim C1: resolve precedence.  Non-nil data whose dynamic type is
directly assignable to the destination type is assigned verbatim with no
converter consulted (the result is the data itself, for every registry);
otherwise, when the registry holds a converter for the destination type,
that converter alone decides: success assigns its result, failure becomes
a conversion failure carrying the current path, the original value and the
target type, and structural pointer, slice or struct handling is never
attempted. -/
theorem claim1_resolve_precedence :
    (∀ fuel u data ty rv path, isNilV data = false → assignableTo data ty = true →
        unmarshalValue (fuel + 1) u data ty rv path = .ok data)
    ∧ (∀ fuel u data ty rv path conv,
        isNilV data = true ∨ assignableTo data ty = false →
        u.converters.find ty = some conv →
        unmarshalValue (fuel + 1) u data ty rv path =
          match conv data with
          | .error e => .error (newConversionError path data ty (some e))
          | .ok converted => .ok converted) := by
  constructor
  · intro fuel u data ty rv path h1 h2
    simp [unmarshalValue, h1, h2]
  · intro fuel u data ty rv path conv h1 h2
    have hcond : (!isNilV data && assignableTo data ty) = false := by
      rcases h1 with h | h <;> simp [h]
    simp [unmarshalValue, hcond, h2]

/-- Witness for C1: an int value lands verbatim in an int slot, and a
string value in an int slot goes through the registered int converter. -/
theorem claim1_witness :
    unmarshalValue 1 uDefault (.vInt 3) .tInt (.vInt 0) "" = .ok (.vInt 3)
    ∧ unmarshalValue 1 uDefault (.vStr "7") .tInt (.vInt 0) "" = .ok (.vInt 7) := by
  constructor
  · exact claim1_resolve_precedence.1 0 uDefault (.vInt 3) .tInt (.vInt 0) "" rfl rfl
  · exact (claim1_resolve_precedence.2 0 uDefault (.vStr "7") .tInt (.vInt 0) ""
      convertInt (Or.inr rfl) rfl).trans rfl

/-- Claim C2: default-vs-explicit precedence in struct field decoding.
When the source key is present the present value is decoded and the
default literal is never consulted (the step is the same for every
default); when the key is absent and a default literal exists, the literal
string goes through exactly the same resolve step as an explicit value;
when the key is absent and there is no default, the field is left
untouched and processing continues with the remaining fields. -/
theorem claim2_default_precedence :
    (∀ (go : Value → Ty → Value → String → Except GoErr Value) dm
        (f : FieldMeta) rest fvals path v d,
        f.embedded = false → lookupStr dm f.mapKey = some v →
        unmarshalFields go dm ({ f with defaultLit := d } :: rest) fvals path =
          match go v f.type (fvals.getD f.index .vNil) (buildFieldPath path f.mapKey) with
          | .error err => .error (.wrapped (buildFieldPath path f.mapKey) err)
          | .ok nv => unmarshalFields go dm rest (fvals.set f.index nv) path)
    ∧ (∀ (go : Value → Ty → Value → String → Except GoErr Value) dm
        (f : FieldMeta) rest fvals path d,
        f.embedded = false → lookupStr dm f.mapKey = none → f.defaultLit = some d →
        unmarshalFields go dm (f :: rest) fvals path =
          match go (.vStr d) f.type (fvals.getD f.index .vNil) (buildFieldPath path f.mapKey) with
          | .error err => .error (.wrapped (buildFieldPath path f.mapKey) err)
          | .ok nv => unmarshalFields go dm rest (fvals.set f.index nv) path)
    ∧ (∀ (go : Value → Ty → Value → String → Except GoErr Value) dm
        (f : FieldMeta) rest fvals path,
        f.embedded = false → lookupStr dm f.mapKey = none → f.defaultLit = none →
        unmarshalFields go dm (f :: rest) fvals path =
          unmarshalFields go dm rest fvals path) := by
  refine ⟨?_, ?_, ?_⟩
  · intro go dm f rest fvals path v d hemb hlook
    simp [unmarshalFields, hemb, hlook]
  · intro go dm f rest fvals path d hemb hlook hdef
    simp [unmarshalFields, hemb, hlook, hdef]
  · intro go dm f rest fvals path hemb hlook hdef
    simp [unmarshalFields, hemb, hlook, hdef]

/-- Witness for C2: with the Count field (source key count, default 42), a
present zero value is used and the default ignored; an absent key decodes
the default literal through the int converter; an absent key with no
default leaves the field value untouched. -/
theorem claim2_witness :
    unmarshalFields (unmarshalValue 5 uDefault) [("count", .vInt 0)]
        [fieldCount] [.vInt 7] "" = .ok [.vInt 0]
    ∧ unmarshalFields (unmarshalValue 5 uDefault) []
        [fieldCount] [.vInt 7] "" = .ok [.vInt 42]
    ∧ unmarshalFields (unmarshalValue 5 uDefault) []
        [{ fieldCount with defaultLit := none }] [.vInt 7] "" = .ok [.vInt 7] := by
  refine ⟨?_, ?_, ?_⟩
  · exact (claim2_default_precedence.1 (unmarshalValue 5 uDefault) [("count", .vInt 0)]
      fieldCount [] [.vInt 7] "" (.vInt 0) (some "42") rfl rfl).trans rfl
  · exact (claim2_default_precedence.2.1 (unmarshalValue 5 uDefault) []
      fieldCount [] [.vInt 7] "" "42" rfl rfl rfl).trans rfl
  · exact (claim2_default_precedence.2.2 (unmarshalValue 5 uDefault) []
      { fieldCount with defaultLit := none } [] [.vInt 7] "" rfl rfl rfl).trans rfl

/-- Counterexample to C3 as stated: the named-embedded branch of
unmarshalEmbeddedField requires the nested entry to have the exact dynamic
type map of string to any, so with the outer map holding both a flattened
key (value set to 9) and, under the declared field name Timestamps, a
string-keyed mapping of another dynamic type (a map of string to string
with value set to 7), the engine falls through to the promoted form and
the flattened key wins: the embedded Inner record decodes to 9, whereas
decoding from the nested mapping (what the claim requires) would give 7,
and the two results differ. -/
theorem claim3_counterexample :
    unmarshalEmbeddedField (unmarshalValue 5 uDefault)
        [("value", .vStr "9"),
         ("Timestamps", .vMapOther "map[string]string" [("value", .vStr "7")])]
        (.vStructV "Inner" [.vInt 0]) fieldEmb "" =
      .ok (.vStructV "Inner" [.vInt 9])
    ∧ unmarshalValue 5 uDefault (.vMap [("value", .vStr "7")]) fieldEmb.type
        (.vStructV "Inner" [.vInt 0]) "" = .ok (.vStructV "Inner" [.vInt 7])
    ∧ (Except.ok (Value.vStructV "Inner" [.vInt 9]) : Except GoErr Value) ≠
        .ok (.vStructV "Inner" [.vInt 7]) := by
  refine ⟨rfl, rfl, ?_⟩
  intro h
  simp [Value.vStructV.injEq] at h

/-- Claim C3 (amended): embedded-field precedence.  For a record-shaped
embedded field, an entry under the declared field name whose value has the
exact dynamic type map of string to any is decoded as the named-embedded
form (taking precedence over any flattened keys in the outer map); when no
such entry exists — including when the entry under the declared name is a
string-keyed mapping of any other dynamic type — the entire current source
map is decoded into the embedded field (promoted form); a non-record-shaped
embedded field is left untouched with no error. -/
theorem claim3_embedded_precedence :
    (∀ (go : Value → Ty → Value → String → Except GoErr Value) dm fv
        (f : FieldMeta) path nm fs nested,
        f.type = .tStruct nm fs →
        lookupStr dm f.structFieldName = some (.vMap nested) →
        unmarshalEmbeddedField go dm fv f path = go (.vMap nested) f.type fv path)
    ∧ (∀ (go : Value → Ty → Value → String → Except GoErr Value) dm fv
        (f : FieldMeta) path nm fs,
        f.type = .tStruct nm fs →
        (∀ nested, lookupStr dm f.structFieldName ≠ some (.vMap nested)) →
        unmarshalEmbeddedField go dm fv f path = go (.vMap dm) f.type fv path)
    ∧ (∀ (go : Value → Ty → Value → String → Except GoErr Value) dm fv
        (f : FieldMeta) path,
        (∀ nm fs, f.type ≠ .tStruct nm fs) →
        unmarshalEmbeddedField go dm fv f path = .ok fv) := by
  refine ⟨?_, ?_, ?_⟩
  · intro go dm fv f path nm fs nested hty hlook
    simp [unmarshalEmbeddedField, hty, hlook]
  · intro go dm fv f path nm fs hty hnot
    rcases hl : lookupStr dm f.structFieldName with _ | w
    · simp [unmarshalEmbeddedField, hty, hl]
    · cases w <;> simp [unmarshalEmbeddedField, hty, hl]
      exact absurd hl (hnot _)
  · intro go dm fv f path hns
    cases hty : f.type <;>
      first
      | exact absurd hty (hns _ _)
      | simp [unmarshalEmbeddedField, hty]

/-- Witness for the amended C3: with both a flattened key and a nested
any-map under the declared name Timestamps, the nested map wins; a nested
entry of another dynamic type (a string-to-string map) is ignored and the
whole outer map is promoted; with no nested entry the whole outer map is
promoted; an embedded non-struct field stays untouched. -/
theorem claim3_witness :
    unmarshalEmbeddedField (unmarshalValue 5 uDefault)
        [("value", .vStr "9"), ("Timestamps", .vMap [("value", .vStr "7")])]
        (.vStructV "Inner" [.vInt 0]) fieldEmb "" =
      unmarshalValue 5 uDefault (.vMap [("value", .vStr "7")]) fieldEmb.type
        (.vStructV "Inner" [.vInt 0]) ""
    ∧ unmarshalEmbeddedField (unmarshalValue 5 uDefault)
        [("value", .vStr "9"),
         ("Timestamps", .vMapOther "map[string]string" [("value", .vStr "7")])]
        (.vStructV "Inner" [.vInt 0]) fieldEmb "" =
      unmarshalValue 5 uDefault
        (.vMap [("value", .vStr "9"),
                ("Timestamps", .vMapOther "map[string]string" [("value", .vStr "7")])])
        fieldEmb.type (.vStructV "Inner" [.vInt 0]) ""
    ∧ unmarshalEmbeddedField (unmarshalValue 5 uDefault)
        [("value", .vStr "9")] (.vStructV "Inner" [.vInt 0]) fieldEmb "" =
      unmarshalValue 5 uDefault (.vMap [("value", .vStr "9")]) fieldEmb.type
        (.vStructV "Inner" [.vInt 0]) ""
    ∧ unmarshalEmbeddedField (unmarshalValue 5 uDefault)
        [("CustomInt", .vInt 3)] (.vInt 0) fieldEmbInt "" = .ok (.vInt 0) := by
  refine ⟨?_, ?_, ?_, ?_⟩
  · exact claim3_embedded_precedence.1 (unmarshalValue 5 uDefault)
      [("value", .vStr "9"), ("Timestamps", .vMap [("value", .vStr "7")])]
      (.vStructV "Inner" [.vInt 0]) fieldEmb "" "Inner" innerFields
      [("value", .vStr "7")] rfl rfl
  · exact claim3_embedded_precedence.2.1 (unmarshalValue 5 uDefault)
      [("value", .vStr "9"),
       ("Timestamps", .vMapOther "map[string]string" [("value", .vStr "7")])]
      (.vStructV "Inner" [.vInt 0]) fieldEmb "" "Inner" innerFields rfl
      (by intro nested h; simp [lookupStr, fieldEmb] at h)
  · exact claim3_embedded_precedence.2.1 (unmarshalValue 5 uDefault)
      [("value", .vStr "9")] (.vStructV "Inner" [.vInt 0]) fieldEmb "" "Inner"
      innerFields rfl (by intro nested h; simp [lookupStr] at h)
  · exact claim3_embedded_precedence.2.2 (unmarshalValue 5 uDefault)
      [("CustomInt", .vInt 3)] (.vInt 0) fieldEmbInt ""
      (by intro nm fs h; simp [fieldEmbInt] at h)

set_option maxRecDepth 4000 in
/-- Claim C4: the sequence fast paths and the element-wise conversion path
agree.  Decoding a native int slice 10, 20, 30 into an int-slice field
equals decoding the same numbers as an any-slice into a fresh destination,
both producing the populated sequence; and decoding the mixed any-slice
1, "2", 3.0, true into an int-slice field succeeds with 1, 2, 3, 1 (string
parsed, float truncated, boolean coerced). -/
theorem claim4_slice_paths_agree :
    Unmarshal 20 uDefault [("Values", .vSlice .tInt [.vInt 10, .vInt 20, .vInt 30])]
        (.vPtr tySliceInt (some freshSliceInt)) =
      Unmarshal 20 uDefault [("Values", .vSlice .tAny [.vInt 10, .vInt 20, .vInt 30])]
        (.vPtr tySliceInt (some freshSliceInt))
    ∧ Unmarshal 20 uDefault [("Values", .vSlice .tInt [.vInt 10, .vInt 20, .vInt 30])]
        (.vPtr tySliceInt (some freshSliceInt)) =
      .ok (.vStructV "SliceInt" [.vSlice .tInt [.vInt 10, .vInt 20, .vInt 30]])
    ∧ Unmarshal 20 uDefault
        [("Values", .vSlice .tAny [.vInt 1, .vStr "2", .vFloat 3, .vBool true])]
        (.vPtr tySliceInt (some freshSliceInt)) =
      .ok (.vStructV "SliceInt" [.vSlice .tInt [.vInt 1, .vInt 2, .vInt 3, .vInt 1]]) :=
  ⟨rfl, rfl, rfl⟩

set_option maxRecDepth 4000 in
/-- Claim C5: path reporting.  Decoding the nested map with inner.value
set to an unparsable string into the Outer record fails, and the failure
wraps a conversion failure whose field path is exactly inner.value. -/
theorem claim5_path_reporting :
    ∃ e, Unmarshal 20 uDefault [("inner", .vMap [("value", .vStr "invalid")])]
        (.vPtr tyOuter (some (.vStructV "Outer" [.vStructV "Inner" [.vInt 0]]))) = .error e
      ∧ errHasConvPath e "inner.value" = true :=
  ⟨.wrapped "inner" (.wrapped "inner.value"
      (.conversionError "inner.value" (.vStr "invalid") .tInt
        (some (.convFailure "parsing invalid: invalid syntax")))), rfl, rfl⟩

/-- Claim C6 (amended): a record-kind destination with no converter and a
non-assignable value proceeds field by field only when the value has the
exact dynamic type map of string to any; every other value, including
string-keyed mappings of any other dynamic type, yields a conversion
failure with no underlying cause. -/
theorem claim6_struct_shape :
    (∀ (go : Value → Ty → Value → String → Except GoErr Value) name fields
        fvals path dm,
        unmarshalStruct go (.vMap dm) name fields (.vStructV name fvals) path =
          match unmarshalFields go dm fields fvals path with
          | .error e => .error e
          | .ok fv2 => .ok (.vStructV name fv2))
    ∧ (∀ (go : Value → Ty → Value → String → Except GoErr Value) data name
        fields rv path,
        (∀ m, data ≠ .vMap m) →
        unmarshalStruct go data name fields rv path =
          .error (newConversionError path data (.tStruct name fields) none)) := by
  constructor
  · intro go name fields fvals path dm
    simp [unmarshalStruct]
  · intro go data name fields rv path hnm
    cases data <;> simp [unmarshalStruct]
    exact absurd rfl (hnm _)

/-- Counterexample to C6 as stated: a string-keyed mapping value whose
dynamic type is not exactly map of string to any (here a map of string to
string) does hit the conversion failure, so not every string-keyed mapping
avoids it. -/
theorem claim6_counterexample :
    unmarshalStruct (unmarshalValue 5 uDefault)
        (.vMapOther "map[string]string" [("A", .vStr "x")]) "S" sFields
        (.vStructV "S" [.vStr ""]) "" =
      .error (.conversionError "root"
        (.vMapOther "map[string]string" [("A", .vStr "x")])
        (.tStruct "S" sFields) none) := rfl

/-- Witness for the amended C6: an exact string-to-any map decodes field
by field, and a non-map value is a causeless conversion failure. -/
theorem claim6_witness :
    unmarshalStruct (unmarshalValue 5 uDefault) (.vMap [("A", .vStr "hi")]) "S"
        sFields (.vStructV "S" [.vStr ""]) "" = .ok (.vStructV "S" [.vStr "hi"])
    ∧ unmarshalStruct (unmarshalValue 5 uDefault) (.vInt 3) "S" sFields
        (.vStructV "S" [.vStr ""]) "" =
      .error (newConversionError "" (.vInt 3) (.tStruct "S" sFields) none) := by
  constructor
  · exact (claim6_struct_shape.1 (unmarshalValue 5 uDefault) "S" sFields
      [.vStr ""] "" [("A", .vStr "hi")]).trans rfl
  · exact claim6_struct_shape.2 (unmarshalValue 5 uDefault) (.vInt 3) "S" sFields
      (.vStructV "S" [.vStr ""]) "" (by intro m h; cases h)

/-- Claim C7: sequence destinations with no converter.  Nil data zeroes
the slice and succeeds; non-nil data that is not sequence-shaped is a
conversion failure with no underlying cause; an empty source sequence
yields an empty but non-nil destination slice. -/
theorem claim7_slice_shape :
    (∀ (go : Value → Ty → Value → String → Except GoErr Value) elemTy path,
        unmarshalSlice go .vNil elemTy path = .ok (.vSliceNil elemTy))
    ∧ (∀ (go : Value → Ty → Value → String → Except GoErr Value) data elemTy path,
        isNilV data = false → sliceView data = none →
        unmarshalSlice go data elemTy path =
          .error (newConversionError path data (.tSlice elemTy) none))
    ∧ (∀ (go : Value → Ty → Value → String → Except GoErr Value) data elemTy dty path,
        sliceView data = some (dty, []) →
        unmarshalSlice go data elemTy path = .ok (.vSlice elemTy [])) := by
  refine ⟨?_, ?_, ?_⟩
  · intro go elemTy path
    rfl
  · intro go data elemTy path h1 h2
    simp [unmarshalSlice, h1, h2]
  · intro go data elemTy dty path h
    have h1 : isNilV data = false := by
      cases data <;> simp_all [sliceView, isNilV]
    simp [unmarshalSlice, h1, h]

/-- Witness for C7: nil data zeroes an int-slice slot, a string is a
causeless conversion failure, and an empty any-slice yields an empty
non-nil int slice. -/
theorem claim7_witness :
    unmarshalSlice (unmarshalValue 5 uDefault) .vNil .tInt "" = .ok (.vSliceNil .tInt)
    ∧ unmarshalSlice (unmarshalValue 5 uDefault) (.vStr "not a slice") .tInt "" =
        .error (newConversionError "" (.vStr "not a slice") (.tSlice .tInt) none)
    ∧ unmarshalSlice (unmarshalValue 5 uDefault) (.vSlice .tAny []) .tInt "" =
        .ok (.vSlice .tInt []) :=
  ⟨claim7_slice_shape.1 (unmarshalValue 5 uDefault) .tInt "",
   claim7_slice_shape.2.1 (unmarshalValue 5 uDefault) (.vStr "not a slice") .tInt ""
     rfl rfl,
   claim7_slice_shape.2.2 (unmarshalValue 5 uDefault) (.vSlice .tAny []) .tInt .tAny ""
     rfl⟩

/-- Claim C8: top-level validation.  A non-pointer destination is the
validation failure result must be a pointer; a nil pointer is the
validation failure result pointer is nil; in both cases the result is
independent of the source map (the source is never read); and with a
non-nil pointer destination no validation failure is ever returned. -/
theorem claim8_pointer_validation :
    (∀ fuel u data result, (∀ e p, result ≠ .vPtr e p) →
        Unmarshal fuel u data result =
          .error (.validationError "result must be a pointer"))
    ∧ (∀ fuel u data elemTy,
        Unmarshal fuel u data (.vPtr elemTy none) =
          .error (.validationError "result pointer is nil"))
    ∧ (∀ fuel u data data2 result, (∀ e v, result ≠ .vPtr e (some v)) →
        Unmarshal fuel u data result = Unmarshal fuel u data2 result)
    ∧ (∀ fuel u data elemTy v e,
        Unmarshal fuel u data (.vPtr elemTy (some v)) = .error e →
        isValidationErr e = false) := by
  refine ⟨?_, ?_, ?_, ?_⟩
  · intro fuel u data result hnp
    cases result <;> first | rfl | exact absurd rfl (hnp _ _)
  · intro fuel u data elemTy
    rfl
  · intro fuel u data data2 result hnp
    cases result
    case vPtr e p =>
      cases p with
      | none => rfl
      | some v => exact absurd rfl (hnp e v)
    all_goals rfl
  · intro fuel u data elemTy v e h
    exact unmarshalValue_not_validation fuel u (.vMap data) elemTy v "" e h

/-- Witness for C8: a non-pointer destination and a nil pointer
destination fail with the two validation messages independently of the
source, and an error from a real decode into a valid pointer is not a
validation failure. -/
theorem claim8_witness :
    Unmarshal 5 uDefault [] (.vInt 0) =
      .error (.validationError "result must be a pointer")
    ∧ Unmarshal 5 uDefault [] (.vPtr .tInt none) =
      .error (.validationError "result pointer is nil")
    ∧ Unmarshal 5 uDefault [("x", .vInt 1)] (.vInt 0) = Unmarshal 5 uDefault [] (.vInt 0)
    ∧ isValidationErr (.wrapped "A" (.conversionError "A" .vNil .tString
        (some (.convFailure "unsupported type for string conversion")))) = false := by
  refine ⟨?_, ?_, ?_, ?_⟩
  · exact claim8_pointer_validation.1 5 uDefault [] (.vInt 0) (by intro e p h; cases h)
  · exact claim8_pointer_validation.2.1 5 uDefault [] .tInt
  · exact claim8_pointer_validation.2.2.1 5 uDefault [("x", .vInt 1)] [] (.vInt 0)
      (by intro e v h; cases h)
  · exact claim8_pointer_validation.2.2.2 5 uDefault [("A", .vNil)] tyS
      (.vStructV "S" [.vStr ""]) _ rfl

/-- Claim C9: skip annotation.  Under a real (non-sentinel) key annotation
name, a visible field whose annotation value is exactly the dash, or whose
parsed canonical name is the dash, is omitted from the built descriptor
(no descriptor entry carries its index), and therefore decoding any source
map leaves that field exactly as the destination started, whatever keys
the map contains. -/
theorem claim9_dash_skips_field (parse : String → Option String)
    (tagName defaultTagName : String) (decl : List RawField) (i : Nat)
    (f : RawField) (hTag : tagName ≠ "-") (hGet : decl.get? i = some f)
    (hExp : f.exported = true)
    (hSkip : tagGet f.tags tagName = "-" ∨
      (tagGet f.tags tagName ≠ "" ∧ parse (tagGet f.tags tagName) = some "-")) :
    (∀ fm ∈ buildMetadata parse tagName defaultTagName decl, fm.index ≠ i)
    ∧ ∀ (go : Value → Ty → Value → String → Except GoErr Value) dm fvals path out,
        unmarshalFields go dm (buildMetadata parse tagName defaultTagName decl)
          fvals path = .ok out →
        out[i]? = fvals[i]? := by
  have hskip : (parseFieldTag parse (tagGet f.tags tagName) f.name).2 = true := by
    rcases hSkip with h | ⟨h1, h2⟩
    · simp [parseFieldTag, h]
    · by_cases hd : tagGet f.tags tagName = "-"
      · simp [parseFieldTag, hd]
      · simp [parseFieldTag, h1, hd, h2]
  have hpart1 : ∀ fm ∈ buildMetadata parse tagName defaultTagName decl,
      fm.index ≠ i := by
    intro fm hm hidx
    obtain ⟨j, g, hj, hget2, hexp2, _, _, _, _, hmk⟩ :=
      buildMetadataGo_mem parse tagName defaultTagName decl 0 fm hm
    have hji : j = i := by omega
    subst hji
    rw [hGet] at hget2
    injection hget2 with hgf
    subst hgf
    rcases hmk with ⟨hm1, _⟩ | ⟨_, hm2⟩
    · exact hTag hm1
    · rw [hm2] at hskip
      simp at hskip
  refine ⟨hpart1, ?_⟩
  intro go dm fvals path out h
  exact unmarshalFields_untouched go dm _ fvals path i out hpart1 h

/-- Witness for C9: the declared shape with one dash-annotated field under
the schema tag builds an empty descriptor, so decoding a map that does
contain the field name leaves the destination field untouched. -/
theorem claim9_witness :
    unmarshalFields (unmarshalValue 5 uDefault) [("Ignored", .vInt 9)]
        (buildMetadata parseNone "schema" "default" declSkip)
        [.vStr "keep"] "" = .ok [.vStr "keep"]
    ∧ ([Value.vStr "keep"] : List Value)[0]? = ([Value.vStr "keep"] : List Value)[0]? := by
  constructor
  · rfl
  · exact (claim9_dash_skips_field parseNone "schema" "default" declSkip 0
      { name := "Ignored", exported := true, anonymous := false,
        tags := [("schema", "-")], type := .tString }
      (by decide) rfl rfl (Or.inl rfl)).2 (unmarshalValue 5 uDefault)
      [("Ignored", .vInt 9)] [.vStr "keep"] "" [.vStr "keep"] rfl

/-- Claim C10: embedded defaults are recorded but never consulted.  The
metadata builder stores the default annotation for embedded fields exactly
as for any field, and the field loop of the decoder is invariant under the
default literal of an embedded field (the embedded branch continues before
the default lookup is reached), for every source map including the empty
one. -/
theorem claim10_embedded_default_unused :
    (∀ parse tagName defaultTagName decl (fm : FieldMeta),
        fm ∈ buildMetadata parse tagName defaultTagName decl →
        ∃ f, decl.get? fm.index = some f ∧ fm.embedded = f.anonymous ∧
          fm.defaultLit = tagLookup f.tags defaultTagName)
    ∧ (∀ (go : Value → Ty → Value → String → Except GoErr Value) dm
        (f : FieldMeta) rest fvals path d d2,
        f.embedded = true →
        unmarshalFields go dm ({ f with defaultLit := d } :: rest) fvals path =
          unmarshalFields go dm ({ f with defaultLit := d2 } :: rest) fvals path) := by
  constructor
  · intro parse tagName defaultTagName decl fm hm
    obtain ⟨j, f, hidx, hget, _, _, _, hembX, hdefX, _⟩ :=
      buildMetadataGo_mem parse tagName defaultTagName decl 0 fm hm
    refine ⟨f, ?_, hembX, hdefX⟩
    rw [hidx]
    simpa using hget
  · intro go dm f rest fvals path d d2 hemb
    simp only [unmarshalFields]
    rw [hemb]
    simp only [eq_self_iff_true, if_true]
    rfl

/-- Witness for C10: the builder records the default annotation of the
embedded Timestamps field, and decoding is unaffected by replacing that
stored default. -/
theorem claim10_witness :
    (∃ f, declEmb.get? fmEmbBuilt.index = some f ∧ fmEmbBuilt.embedded = f.anonymous ∧
        fmEmbBuilt.defaultLit = tagLookup f.tags "default")
    ∧ unmarshalFields (unmarshalValue 5 uDefault) []
        ({ fmEmbBuilt with defaultLit := some "x" } :: [])
        [.vStructV "Inner" [.vInt 0]] "" =
      unmarshalFields (unmarshalValue 5 uDefault) []
        ({ fmEmbBuilt with defaultLit := none } :: [])
        [.vStructV "Inner" [.vInt 0]] "" :=
  ⟨claim10_embedded_default_unused.1 parseNone "schema" "default" declEmb fmEmbBuilt
      (List.Mem.head _),
   claim10_embedded_default_unused.2 (unmarshalValue 5 uDefault) [] fmEmbBuilt []
      [.vStructV "Inner" [.vInt 0]] "" (some "x") none rfl⟩
